import Mathlib

/-!
# ModelAssetBundleResources

A shallow embedding of `mediapipe/tasks/cc/core/model_asset_bundle_resources.cc`.

The three functions the bundle calls but does not define
(`mediapipe::PathToResourceAsFile`, `ExternalFileHandler::CreateFromExternalFile`
and `metadata::ExtractFilesfromZipFile`) are parameters, gathered in
`Collaborators`.  Every call to one of them is recorded in a call log, so that
"is not invoked" is a statement about that log.

`absl::StatusOr<T>` is `Except Status T`, `absl::Status` is `Except Status Unit`:
`Except.ok` is the OK status, and a `Status` value is always an error.
-/

namespace mediapipe.tasks.core

/-- A byte sequence (`absl::string_view`, `bytes`). -/
abbrev Bytes := List UInt8

/-- The error codes of `absl::StatusCode`.  `kOk` is absent: success is
`Except.ok`, so a `Status` value always denotes an error. -/
inductive StatusCode where
  | kCancelled
  | kUnknown
  | kInvalidArgument
  | kDeadlineExceeded
  | kNotFound
  | kAlreadyExists
  | kPermissionDenied
  | kResourceExhausted
  | kFailedPrecondition
  | kAborted
  | kOutOfRange
  | kUnimplemented
  | kInternal
  | kUnavailable
  | kDataLoss
  | kUnauthenticated
  deriving DecidableEq, Repr

/-- Modelled from the spec: the enumeration `MediaPipeTasksStatus` is declared in
`mediapipe/tasks/cc/common.h`, which is not part of the sources.  The two
enumerators the bundle uses are named; `kOther` stands for every other one. -/
inductive MediaPipeTasksStatus where
  | kInvalidArgumentError
  | kFileNotFoundError
  | kOther (code : Nat)
  deriving DecidableEq, Repr

/-- A non-OK `absl::Status`: code, message and the MediaPipe payload. -/
structure Status where
  code : StatusCode
  message : String
  payload : Option MediaPipeTasksStatus
  deriving DecidableEq, Repr

/-- Modelled from the spec: `CreateStatusWithPayload` is declared in
`mediapipe/tasks/cc/common.h`, which is not part of the sources.  It builds a
status of the given kind and message and attaches the MediaPipe code. -/
def CreateStatusWithPayload (code : StatusCode) (message : String)
    (mediapipe_tasks_code : MediaPipeTasksStatus) : Status :=
  { code := code, message := message, payload := some mediapipe_tasks_code }

/-- Modelled from the spec: `proto::FileDescriptorMeta` (the platform handle of
the data model) is declared in a proto file that is not part of the sources. -/
structure FileDescriptorMeta where
  fd : Int
  length : Int
  offset : Int
  deriving DecidableEq, Repr

/-- Modelled from the spec: `proto::FilePointerMeta` (`{address, length}` in the
data model) is declared in a proto file that is not part of the sources. -/
structure FilePointerMeta where
  pointer : Nat
  length : Int
  deriving DecidableEq, Repr

/-- Modelled from the spec: `proto::ExternalFile` is declared in a proto file
that is not part of the sources.  The fields are the four variants of the data
model; each is optional, as the accessors `has_file_name`, `file_name` and
`set_file_name` used by the bundle show for the file name. -/
structure ExternalFile where
  file_content : Option Bytes
  file_name : Option String
  file_descriptor_meta : Option FileDescriptorMeta
  file_pointer_meta : Option FilePointerMeta
  deriving DecidableEq, Repr

/-- The mutator `set_file_name(path)`: only the file name changes. -/
def ExternalFile.set_file_name (f : ExternalFile) (path : String) : ExternalFile :=
  { f with file_name := some path }

/-- Modelled from the spec: `ExternalFileHandler` is declared outside the
sources.  It owns the contiguous byte buffer of the resolved file. -/
structure ExternalFileHandler where
  buffer : Bytes
  deriving DecidableEq, Repr

/-- The accessor `GetFileContent()`: a view over the whole buffer. -/
def ExternalFileHandler.GetFileContent (h : ExternalFileHandler) : Bytes :=
  h.buffer

/-- The container `absl::flat_hash_map<std::string, absl::string_view>`: a
finite set of (name, bytes) pairs with pairwise distinct names.  The order of
`entries` is the iteration order of this one table, about which nothing is
assumed; two tables with the same pairs may iterate in different orders. -/
structure FlatHashMap where
  entries : List (String × Bytes)
  nodup : (entries.map Prod.fst).Nodup

/-- The default-constructed (empty) table. -/
def FlatHashMap.empty : FlatHashMap :=
  { entries := [], nodup := List.nodup_nil }

/-- The member `find(key)`: the entry with that exact name, `none` for `end()`. -/
def FlatHashMap.find (m : FlatHashMap) (key : String) : Option (String × Bytes) :=
  m.entries.find? (fun e => e.1 == key)

/-- The member `size()`. -/
def FlatHashMap.size (m : FlatHashMap) : Nat :=
  m.entries.length

/-- One call to a function defined outside `model_asset_bundle_resources.cc`. -/
inductive Call where
  | PathToResourceAsFile (path : String)
  | CreateFromExternalFile (file : ExternalFile)
  | ExtractFilesfromZipFile (buffer : Bytes)
  deriving DecidableEq, Repr

/-- The functions the bundle consumes, as they behave during one call of
`Create`.  `ExtractFilesfromZipFile` receives the buffer and the table it
writes into (the out-parameter `&model_files_`), and gives back its status
together with the table as it left it; the order of that table is the
iteration order of the one object being built.  Two objects are therefore
compared under two values related by `SameUpToTableOrder`. -/
structure Collaborators where
  PathToResourceAsFile : String → Except Status String
  CreateFromExternalFile : ExternalFile → Except Status ExternalFileHandler
  ExtractFilesfromZipFile : Bytes → FlatHashMap → Except Status Unit × FlatHashMap

/-- Two values of the collaborators that stand for the same files and the same
archives and differ at most in the iteration order of the table the archive
reader fills: the same search, the same file handler, and an archive reader
with the same status and the same entries, in some order. -/
def SameUpToTableOrder (env1 env2 : Collaborators) : Prop :=
  env1.PathToResourceAsFile = env2.PathToResourceAsFile ∧
  env1.CreateFromExternalFile = env2.CreateFromExternalFile ∧
  ∀ buffer files,
    (env1.ExtractFilesfromZipFile buffer files).1 =
      (env2.ExtractFilesfromZipFile buffer files).1 ∧
    (env1.ExtractFilesfromZipFile buffer files).2.entries.Perm
      (env2.ExtractFilesfromZipFile buffer files).2.entries

/-- The data members of `ModelAssetBundleResources`. -/
structure ModelAssetBundleResources where
  tag_ : String
  model_asset_bundle_file_ : ExternalFile
  model_asset_bundle_file_handler_ : Option ExternalFileHandler
  model_files_ : FlatHashMap

/-- The constructor: tag and descriptor are stored, the handler is null and the
table of files is empty. -/
def ModelAssetBundleResources.new (tag : String) (model_asset_bundle_file : ExternalFile) :
    ModelAssetBundleResources :=
  { tag_ := tag
    model_asset_bundle_file_ := model_asset_bundle_file
    model_asset_bundle_file_handler_ := none
    model_files_ := FlatHashMap.empty }

/-- Lines 60-67 of `ExtractModelFilesFromExternalFileProto`, the block guarded
by `has_file_name()`, which holds exactly when `file_name` is `some`: a
descriptor with a file name has that name passed to
`PathToResourceAsFile` and replaced by the returned path; any other descriptor
is left alone and nothing is called.  The result is the descriptor after the
block, or the status the method returns from it, and the calls made. -/
def resolveFileName (env : Collaborators) (file : ExternalFile) :
    Except Status ExternalFile × List Call :=
  match file.file_name with
  | some file_name =>
    match env.PathToResourceAsFile file_name with
    | .error status => (.error status, [Call.PathToResourceAsFile file_name])
    | .ok path_to_resource =>
      (.ok (file.set_file_name path_to_resource), [Call.PathToResourceAsFile file_name])
  | none => (.ok file, [])

/-- The method `ExtractModelFilesFromExternalFileProto`.  The result is the
returned status, the object as the method left it, and the calls it made. -/
def ExtractModelFilesFromExternalFileProto (env : Collaborators)
    (self : ModelAssetBundleResources) :
    (Except Status Unit × ModelAssetBundleResources) × List Call :=
  match resolveFileName env self.model_asset_bundle_file_ with
  | (.error status, log) => ((.error status, self), log)
  | (.ok file, log) =>
    let self1 := { self with model_asset_bundle_file_ := file }
    match env.CreateFromExternalFile self1.model_asset_bundle_file_ with
    | .error status =>
      ((.error status, self1), log ++ [Call.CreateFromExternalFile self1.model_asset_bundle_file_])
    | .ok handler =>
      let self2 := { self1 with model_asset_bundle_file_handler_ := some handler }
      let buffer := handler.GetFileContent
      let extracted := env.ExtractFilesfromZipFile buffer self2.model_files_
      ((extracted.1, { self2 with model_files_ := extracted.2 }),
       log ++ [Call.CreateFromExternalFile self1.model_asset_bundle_file_,
               Call.ExtractFilesfromZipFile buffer])

/-- The static factory `Create`; `none` is the null descriptor.  The result is
the returned `StatusOr` and the calls that were made. -/
def Create (env : Collaborators) (tag : String)
    (model_asset_bundle_file : Option ExternalFile) :
    Except Status ModelAssetBundleResources × List Call :=
  match model_asset_bundle_file with
  | none =>
    (.error (CreateStatusWithPayload StatusCode.kInvalidArgument
        "The model asset bundle file proto cannot be nullptr."
        MediaPipeTasksStatus.kInvalidArgumentError), [])
  | some file =>
    let model_bundle_resources := ModelAssetBundleResources.new tag file
    match ExtractModelFilesFromExternalFileProto env model_bundle_resources with
    | ((.error status, _), log) => (.error status, log)
    | ((.ok _, resources), log) => (.ok resources, log)

/-- The method `ListModelFiles`: one `push_back` per entry of the table, in
iteration order. -/
def ListModelFiles (self : ModelAssetBundleResources) : List String :=
  self.model_files_.entries.foldl (fun model_names e => model_names ++ [e.1]) []

/-- The function `absl::StrJoin(begin, end, separator)`. -/
def StrJoin : List String → String → String
  | [], _ => ""
  | [a], _ => a
  | a :: b :: rest, separator => a ++ separator ++ StrJoin (b :: rest) separator

/-- The method `GetModelFile`. -/
def GetModelFile (self : ModelAssetBundleResources) (filename : String) :
    Except Status Bytes :=
  match self.model_files_.find filename with
  | none =>
    let model_files := ListModelFiles self
    let all_model_files := StrJoin model_files ", "
    .error (CreateStatusWithPayload StatusCode.kNotFound
      ("No model file with name: " ++ filename ++
        ". All model files in the model asset bundle are: " ++ all_model_files ++ ".")
      MediaPipeTasksStatus.kFileNotFoundError)
  | some it => .ok it.2

/-- A member function as a step on the object: the value it returns and the
object after the call. -/
abbrev OnObject (α : Type) := ModelAssetBundleResources → α × ModelAssetBundleResources

/-- The lookup `model_files_.find(key)` as a step on the object.  The member
`find` of the hash map is a lookup: it inserts nothing and moves nothing. -/
def model_files_find (key : String) : OnObject (Option (String × Bytes)) :=
  fun self => (self.model_files_.find key, self)

/-- The traversal `for (const auto& [model_name, _] : model_files_)` as a step
on the object: the entries in iteration order, read through const references. -/
def model_files_traverse : OnObject (List (String × Bytes)) :=
  fun self => (self.model_files_.entries, self)

/-- The method `ListModelFiles` as a step on the object: the traversal of the
table, then one `push_back` on the local vector per entry. -/
def ListModelFiles_call : OnObject (List String) :=
  fun self =>
    let traversed := model_files_traverse self
    (traversed.1.foldl (fun model_names e => model_names ++ [e.1]) [], traversed.2)

/-- The method `GetModelFile` as a step on the object: the lookup, then either
the call of `ListModelFiles` and the error built from its names, or the bytes
of the entry found. -/
def GetModelFile_call (filename : String) : OnObject (Except Status Bytes) :=
  fun self =>
    let found := model_files_find filename self
    match found.1 with
    | none =>
      let listed := ListModelFiles_call found.2
      let all_model_files := StrJoin listed.1 ", "
      (.error (CreateStatusWithPayload StatusCode.kNotFound
        ("No model file with name: " ++ filename ++
          ". All model files in the model asset bundle are: " ++ all_model_files ++ ".")
        MediaPipeTasksStatus.kFileNotFoundError), listed.2)
    | some it => (.ok it.2, found.2)

/-- A call of one of the two query methods. -/
inductive Query where
  | getModelFile (filename : String)
  | listModelFiles

/-- What a query method returns. -/
inductive Answer where
  | file (result : Except Status Bytes)
  | names (model_names : List String)

/-- One query on an instance: the value returned and the instance the method
leaves behind. -/
def Query.call (self : ModelAssetBundleResources) :
    Query → Answer × ModelAssetBundleResources
  | Query.getModelFile filename =>
    let result := GetModelFile_call filename self
    (Answer.file result.1, result.2)
  | Query.listModelFiles =>
    let result := ListModelFiles_call self
    (Answer.names result.1, result.2)

/-- A sequence of queries made one after the other, each on the instance the
one before left behind: the answers in order and the instance after the last
call. -/
def Query.callAll (self : ModelAssetBundleResources) :
    List Query → List Answer × ModelAssetBundleResources
  | [] => ([], self)
  | q :: rest =>
    let first := Query.call self q
    let others := Query.callAll first.2 rest
    (first.1 :: others.1, others.2)

/-! ## Sample inputs -/

/-- The two entries of a sample bundle: `model.tflite` and `labels.txt`. -/
def sampleFiles : FlatHashMap :=
  { entries := [("model.tflite", [0, 1]), ("labels.txt", [99, 97, 116, 10, 100, 111, 103])]
    nodup := by decide }

/-- The bytes of the sample archive. -/
def sampleArchive : Bytes := [80, 75, 3, 4]

/-- The sample notion of an absolute path: one that starts with `/`. -/
def isAbsolutePath (path : String) : Bool :=
  path.data.head? == some '/'

/-- Sample collaborators.  The search returns a path that is already absolute
as it is and finds `bundle.task` and `cut.task` under `/res`; the file handler serves
inline content as it is, the sample archive for `/res/bundle.task` and a cut
archive for `/res/cut.task`; the archive reader accepts the sample archive only
and reports every other buffer as truncated, after writing one entry. -/
def sampleEnv : Collaborators :=
  { PathToResourceAsFile := fun path =>
      if isAbsolutePath path then .ok path
      else if path = "bundle.task" then .ok "/res/bundle.task"
      else if path = "cut.task" then .ok "/res/cut.task"
      else .error { code := StatusCode.kNotFound, message := "resource not found",
                    payload := none }
    CreateFromExternalFile := fun file =>
      match file.file_content, file.file_name with
      | some content, _ => .ok { buffer := content }
      | none, some name =>
        if name = "/res/bundle.task" then .ok { buffer := sampleArchive }
        else if name = "/res/cut.task" then .ok { buffer := [80, 75, 3] }
        else .error { code := StatusCode.kNotFound, message := "unable to open file",
                      payload := none }
      | none, none =>
        .error { code := StatusCode.kInvalidArgument, message := "no file source",
                 payload := none }
    ExtractFilesfromZipFile := fun buffer files =>
      if buffer = sampleArchive then (.ok (), sampleFiles)
      else (.error { code := StatusCode.kDataLoss, message := "truncated entry",
                     payload := none },
            { entries := [("model.tflite", [0])], nodup := by decide }) }

/-- The entries of `sampleFiles` as another table iterates them. -/
def reorderedFiles : FlatHashMap :=
  { entries := [("labels.txt", [99, 97, 116, 10, 100, 111, 103]), ("model.tflite", [0, 1])]
    nodup := by decide }

/-- The sample collaborators during the construction of a second object, whose
table iterates its entries in the other order. -/
def reorderedEnv : Collaborators :=
  { PathToResourceAsFile := sampleEnv.PathToResourceAsFile
    CreateFromExternalFile := sampleEnv.CreateFromExternalFile
    ExtractFilesfromZipFile := fun buffer _ =>
      if buffer = sampleArchive then (.ok (), reorderedFiles)
      else (.error { code := StatusCode.kDataLoss, message := "truncated entry",
                     payload := none },
            { entries := [("model.tflite", [0])], nodup := by decide }) }

/-- A descriptor holding the relative path `bundle.task`. -/
def relativeFile : ExternalFile :=
  { file_content := none, file_name := some "bundle.task",
    file_descriptor_meta := none, file_pointer_meta := none }

/-- A descriptor holding the relative path `cut.task`, whose archive is cut. -/
def cutFile : ExternalFile :=
  { file_content := none, file_name := some "cut.task",
    file_descriptor_meta := none, file_pointer_meta := none }

/-- A descriptor holding a relative path the search does not find. -/
def missingFile : ExternalFile :=
  { file_content := none, file_name := some "nowhere.task",
    file_descriptor_meta := none, file_pointer_meta := none }

/-- A descriptor holding the absolute path `/res/bundle.task`. -/
def plainAbsoluteFile : ExternalFile :=
  { file_content := none, file_name := some "/res/bundle.task",
    file_descriptor_meta := none, file_pointer_meta := none }

/-- A descriptor holding the sample archive inline, without a file name. -/
def inlineFile : ExternalFile :=
  { file_content := some sampleArchive, file_name := none,
    file_descriptor_meta := none, file_pointer_meta := none }

/-- A ready bundle holding the sample entries. -/
def sampleBundle : ModelAssetBundleResources :=
  { tag_ := "sample"
    model_asset_bundle_file_ := inlineFile
    model_asset_bundle_file_handler_ := some { buffer := sampleArchive }
    model_files_ := sampleFiles }

/-- The instance `Create` returns for `relativeFile` under the tag `hand`. -/
def createdBundle : ModelAssetBundleResources :=
  { tag_ := "hand"
    model_asset_bundle_file_ := relativeFile.set_file_name "/res/bundle.task"
    model_asset_bundle_file_handler_ := some { buffer := sampleArchive }
    model_files_ := sampleFiles }

/-! ## Lemmas on the table and on joining -/

theorem foldl_push_back (l : List (String × Bytes)) (init : List String) :
    l.foldl (fun model_names e => model_names ++ [e.1]) init = init ++ l.map Prod.fst := by
  induction l generalizing init with
  | nil => simp
  | cons e l ih => simp [ih]

theorem ListModelFiles_eq_keys (self : ModelAssetBundleResources) :
    ListModelFiles self = self.model_files_.entries.map Prod.fst := by
  simp [ListModelFiles, foldl_push_back]

theorem find_eq_none_iff (m : FlatHashMap) (key : String) :
    m.find key = none ↔ key ∉ m.entries.map Prod.fst := by
  simp only [FlatHashMap.find, List.find?_eq_none, List.mem_map, not_exists, not_and]
  constructor
  · intro h e he hk
    exact h e he (by simp [hk])
  · intro h e he hk
    exact h e he (by simpa using hk)

theorem find_of_mem (m : FlatHashMap) (e : String × Bytes) (he : e ∈ m.entries) :
    m.find e.1 = some e := by
  obtain ⟨entries, nodup⟩ := m
  simp only [FlatHashMap.find]
  simp only at he
  induction entries with
  | nil => cases he
  | cons a l ih =>
    simp only [List.map_cons, List.nodup_cons] at nodup
    by_cases hae : a = e
    · subst hae
      simp
    · have hel : e ∈ l := by
        rcases List.mem_cons.1 he with h | h
        · exact absurd h.symm hae
        · exact h
      have hne : a.1 ≠ e.1 := by
        intro heq
        exact nodup.1 (heq ▸ List.mem_map_of_mem Prod.fst hel)
      simp only [List.find?_cons]
      have : (a.1 == e.1) = false := by simpa using hne
      rw [this]
      exact ih nodup.2 hel

theorem StrJoin_contains (separator : String) :
    ∀ (names : List String) (n : String), n ∈ names →
      n.data <:+: (StrJoin names separator).data
  | [], _, h => absurd h (List.not_mem_nil _)
  | [a], n, h => by
    have hn : n = a := by simpa using h
    subst hn
    simp [StrJoin]
  | a :: b :: rest, n, h => by
    simp only [StrJoin, String.data_append]
    rcases List.mem_cons.1 h with hn | hn
    · subst hn
      exact ⟨[], separator.data ++ (StrJoin (b :: rest) separator).data, by simp⟩
    · obtain ⟨s, t, hst⟩ := StrJoin_contains separator (b :: rest) n hn
      exact ⟨a.data ++ separator.data ++ s, t, by simp [← hst]⟩

/-! ## Lemmas on `Create`, one per way through it -/

theorem resolveFileName_none (env : Collaborators) (file : ExternalFile)
    (h : file.file_name = none) : resolveFileName env file = (.ok file, []) := by
  simp [resolveFileName, h]

theorem resolveFileName_error (env : Collaborators) (file : ExternalFile)
    (name : String) (status : Status) (h : file.file_name = some name)
    (hs : env.PathToResourceAsFile name = .error status) :
    resolveFileName env file = (.error status, [Call.PathToResourceAsFile name]) := by
  simp [resolveFileName, h, hs]

theorem resolveFileName_ok (env : Collaborators) (file : ExternalFile)
    (name path : String) (h : file.file_name = some name)
    (hs : env.PathToResourceAsFile name = .ok path) :
    resolveFileName env file =
      (.ok (file.set_file_name path), [Call.PathToResourceAsFile name]) := by
  simp [resolveFileName, h, hs]

theorem Create_of_search_error (env : Collaborators) (tag : String) (file : ExternalFile)
    (status : Status) (log : List Call)
    (h : resolveFileName env file = (.error status, log)) :
    Create env tag (some file) = (.error status, log) := by
  simp [Create, ExtractModelFilesFromExternalFileProto, ModelAssetBundleResources.new, h]

theorem Create_of_handler_error (env : Collaborators) (tag : String) (file resolved : ExternalFile)
    (status : Status) (log : List Call)
    (h : resolveFileName env file = (.ok resolved, log))
    (hh : env.CreateFromExternalFile resolved = .error status) :
    Create env tag (some file) =
      (.error status, log ++ [Call.CreateFromExternalFile resolved]) := by
  simp [Create, ExtractModelFilesFromExternalFileProto, ModelAssetBundleResources.new, h, hh]

theorem Create_of_archive_error (env : Collaborators) (tag : String)
    (file resolved : ExternalFile) (handler : ExternalFileHandler)
    (status : Status) (log : List Call)
    (h : resolveFileName env file = (.ok resolved, log))
    (hh : env.CreateFromExternalFile resolved = .ok handler)
    (ha : (env.ExtractFilesfromZipFile handler.GetFileContent FlatHashMap.empty).1
      = .error status) :
    Create env tag (some file) =
      (.error status, log ++ [Call.CreateFromExternalFile resolved,
        Call.ExtractFilesfromZipFile handler.GetFileContent]) := by
  simp [Create, ExtractModelFilesFromExternalFileProto, ModelAssetBundleResources.new, h, hh, ha]

theorem Create_of_archive_ok (env : Collaborators) (tag : String)
    (file resolved : ExternalFile) (handler : ExternalFileHandler) (log : List Call)
    (h : resolveFileName env file = (.ok resolved, log))
    (hh : env.CreateFromExternalFile resolved = .ok handler)
    (ha : (env.ExtractFilesfromZipFile handler.GetFileContent FlatHashMap.empty).1
      = .ok ()) :
    Create env tag (some file) =
      (.ok { tag_ := tag
             model_asset_bundle_file_ := resolved
             model_asset_bundle_file_handler_ := some handler
             model_files_ :=
               (env.ExtractFilesfromZipFile handler.GetFileContent FlatHashMap.empty).2 },
       log ++ [Call.CreateFromExternalFile resolved,
        Call.ExtractFilesfromZipFile handler.GetFileContent]) := by
  simp [Create, ExtractModelFilesFromExternalFileProto, ModelAssetBundleResources.new, h, hh, ha]

/-- Every way through `Create` on a descriptor that is not null. -/
theorem Create_cases (env : Collaborators) (tag : String) (file : ExternalFile) :
    (∃ status log, resolveFileName env file = (.error status, log) ∧
      Create env tag (some file) = (.error status, log)) ∨
    (∃ resolved status log, resolveFileName env file = (.ok resolved, log) ∧
      env.CreateFromExternalFile resolved = .error status ∧
      Create env tag (some file) =
        (.error status, log ++ [Call.CreateFromExternalFile resolved])) ∨
    (∃ resolved handler status log, resolveFileName env file = (.ok resolved, log) ∧
      env.CreateFromExternalFile resolved = .ok handler ∧
      (env.ExtractFilesfromZipFile handler.GetFileContent FlatHashMap.empty).1
        = .error status ∧
      Create env tag (some file) =
        (.error status, log ++ [Call.CreateFromExternalFile resolved,
          Call.ExtractFilesfromZipFile handler.GetFileContent])) ∨
    (∃ resolved handler log, resolveFileName env file = (.ok resolved, log) ∧
      env.CreateFromExternalFile resolved = .ok handler ∧
      (env.ExtractFilesfromZipFile handler.GetFileContent FlatHashMap.empty).1
        = .ok () ∧
      Create env tag (some file) =
        (.ok { tag_ := tag
               model_asset_bundle_file_ := resolved
               model_asset_bundle_file_handler_ := some handler
               model_files_ :=
                 (env.ExtractFilesfromZipFile handler.GetFileContent FlatHashMap.empty).2 },
         log ++ [Call.CreateFromExternalFile resolved,
          Call.ExtractFilesfromZipFile handler.GetFileContent])) := by
  rcases h : resolveFileName env file with ⟨_ | resolved, log⟩
  · exact Or.inl ⟨_, log, rfl, Create_of_search_error env tag file _ log h⟩
  · rcases hh : env.CreateFromExternalFile resolved with _ | handler
    · exact Or.inr (Or.inl ⟨resolved, _, log, rfl, hh,
        Create_of_handler_error env tag file resolved _ log h hh⟩)
    · rcases ha : (env.ExtractFilesfromZipFile handler.GetFileContent FlatHashMap.empty).1
        with _ | u
      · exact Or.inr (Or.inr (Or.inl ⟨resolved, handler, _, log, rfl, hh, ha,
          Create_of_archive_error env tag file resolved handler _ log h hh ha⟩))
      · exact Or.inr (Or.inr (Or.inr ⟨resolved, handler, log, rfl, hh, ha,
          Create_of_archive_ok env tag file resolved handler log h hh ha⟩))

/-- An instance comes out of `Create` only through the last way. -/
theorem Create_ok_inversion (env : Collaborators) (tag : String) (file : ExternalFile)
    (r : ModelAssetBundleResources) (hr : (Create env tag (some file)).1 = .ok r) :
    ∃ resolved log handler, resolveFileName env file = (.ok resolved, log) ∧
      env.CreateFromExternalFile resolved = .ok handler ∧
      (env.ExtractFilesfromZipFile handler.GetFileContent FlatHashMap.empty).1
        = .ok () ∧
      r.model_files_ =
        (env.ExtractFilesfromZipFile handler.GetFileContent FlatHashMap.empty).2 ∧
      r.tag_ = tag ∧
      r.model_asset_bundle_file_ = resolved ∧
      r.model_asset_bundle_file_handler_ = some handler := by
  rcases Create_cases env tag file with
    ⟨status, log, h, hc⟩ | ⟨resolved, status, log, h, hh, hc⟩ |
    ⟨resolved, handler, status, log, h, hh, ha, hc⟩ |
    ⟨resolved, handler, log, h, hh, ha, hc⟩
  · rw [hc] at hr
    cases hr
  · rw [hc] at hr
    cases hr
  · rw [hc] at hr
    cases hr
  · rw [hc] at hr
    simp only [Except.ok.injEq] at hr
    subst hr
    exact ⟨resolved, log, handler, h, hh, ha, rfl, rfl, rfl, rfl⟩

/-- The descriptor after the file-name block, when the block succeeds. -/
theorem resolveFileName_ok_cases (env : Collaborators) (file resolved : ExternalFile)
    (log : List Call) (h : resolveFileName env file = (.ok resolved, log)) :
    (file.file_name = none ∧ resolved = file ∧ log = []) ∨
    (∃ name path, file.file_name = some name ∧ env.PathToResourceAsFile name = .ok path ∧
      resolved = file.set_file_name path ∧ log = [Call.PathToResourceAsFile name]) := by
  rcases hn : file.file_name with _ | name
  · rw [resolveFileName_none env file hn] at h
    simp only [Prod.mk.injEq, Except.ok.injEq] at h
    exact Or.inl ⟨rfl, h.1.symm, h.2.symm⟩
  · rcases hp : env.PathToResourceAsFile name with status | path
    · rw [resolveFileName_error env file name status hn hp] at h
      simp at h
    · rw [resolveFileName_ok env file name path hn hp] at h
      simp only [Prod.mk.injEq, Except.ok.injEq] at h
      exact Or.inr ⟨name, path, rfl, hp, h.1.symm, h.2.symm⟩

theorem set_file_name_same (file : ExternalFile) (name : String)
    (h : file.file_name = some name) : file.set_file_name name = file := by
  cases file
  simp only [ExternalFile.set_file_name] at *
  simp [h]

/-! ## The lookup contract -/

/-- C1: on every instance, whatever its table of files (the empty one
included), `GetModelFile` of a name that `ListModelFiles` does not list returns
an error of kind `kNotFound` and never bytes; the message is the text naming the
requested file followed by the listed names joined with ", ", and so contains
every listed name as a substring. -/
theorem GetModelFile_missing_name (self : ModelAssetBundleResources) (n : String)
    (h : n ∉ ListModelFiles self) :
    ∃ status, GetModelFile self n = .error status ∧
      (∀ bytes, GetModelFile self n ≠ .ok bytes) ∧
      status.code = StatusCode.kNotFound ∧
      status.message =
        "No model file with name: " ++ n ++
          ". All model files in the model asset bundle are: " ++
          StrJoin (ListModelFiles self) ", " ++ "." ∧
      (∀ m, m ∈ ListModelFiles self → m.data <:+: status.message.data) := by
  have hfind : self.model_files_.find n = none := by
    rw [find_eq_none_iff, ← ListModelFiles_eq_keys]
    exact h
  have hget : GetModelFile self n = .error (CreateStatusWithPayload StatusCode.kNotFound
      ("No model file with name: " ++ n ++
        ". All model files in the model asset bundle are: " ++
        StrJoin (ListModelFiles self) ", " ++ ".")
      MediaPipeTasksStatus.kFileNotFoundError) := by
    simp [GetModelFile, hfind]
  refine ⟨_, hget, ?_, rfl, rfl, ?_⟩
  · intro bytes hb
    rw [hget] at hb
    cases hb
  · intro m hm
    obtain ⟨s, t, hst⟩ := StrJoin_contains ", " (ListModelFiles self) m hm
    refine ⟨("No model file with name: " ++ n ++
        ". All model files in the model asset bundle are: ").data ++ s, t ++ ".".data, ?_⟩
    simp only [CreateStatusWithPayload, String.data_append, ← hst]
    simp

/-- C1, at the sample bundle and the name `missing.bin`. -/
theorem GetModelFile_missing_name_witness :
    "missing.bin" ∉ ListModelFiles sampleBundle ∧
    ∃ status, GetModelFile sampleBundle "missing.bin" = .error status ∧
      (∀ bytes, GetModelFile sampleBundle "missing.bin" ≠ .ok bytes) ∧
      status.code = StatusCode.kNotFound ∧
      status.message =
        "No model file with name: " ++ "missing.bin" ++
          ". All model files in the model asset bundle are: " ++
          StrJoin (ListModelFiles sampleBundle) ", " ++ "." ∧
      (∀ m, m ∈ ListModelFiles sampleBundle → m.data <:+: status.message.data) :=
  ⟨by decide, GetModelFile_missing_name sampleBundle "missing.bin" (by decide)⟩

/-- C7: on every instance, `ListModelFiles` returns all names held in the
table: a name is listed exactly when the table has an entry of that name, every
listed name occurs once, and there are as many names as entries (none for the
empty table). -/
theorem ListModelFiles_all_names (self : ModelAssetBundleResources) :
    (∀ n, n ∈ ListModelFiles self ↔ ∃ bytes, (n, bytes) ∈ self.model_files_.entries) ∧
    (∀ n, n ∈ ListModelFiles self ↔ (self.model_files_.find n).isSome = true) ∧
    (∀ n, n ∈ ListModelFiles self → (ListModelFiles self).count n = 1) ∧
    (ListModelFiles self).length = self.model_files_.size ∧
    (self.model_files_.size = 0 → ListModelFiles self = []) := by
  have hkeys := ListModelFiles_eq_keys self
  have hmem : ∀ n, n ∈ ListModelFiles self ↔
      ∃ bytes, (n, bytes) ∈ self.model_files_.entries := by
    intro n
    rw [hkeys, List.mem_map]
    constructor
    · rintro ⟨⟨k, b⟩, he, rfl⟩
      exact ⟨b, he⟩
    · rintro ⟨b, he⟩
      exact ⟨(n, b), he, rfl⟩
  refine ⟨hmem, ?_, ?_, ?_, ?_⟩
  · intro n
    constructor
    · intro hn
      obtain ⟨b, he⟩ := (hmem n).1 hn
      have := find_of_mem self.model_files_ (n, b) he
      simp only at this
      rw [this]
      rfl
    · intro hs
      by_contra hn
      rw [hkeys, ← find_eq_none_iff] at hn
      rw [hn] at hs
      cases hs
  · intro n hn
    have hnodup : (ListModelFiles self).Nodup := by
      rw [hkeys]
      exact self.model_files_.nodup
    exact List.count_eq_one_of_mem hnodup hn
  · rw [hkeys]
    simp [FlatHashMap.size]
  · intro h0
    rw [hkeys]
    have : self.model_files_.entries = [] := List.length_eq_zero.1 h0
    rw [this]
    rfl

/-- C7, at the sample bundle: its two names, each once. -/
theorem ListModelFiles_all_names_witness :
    ListModelFiles sampleBundle = ["model.tflite", "labels.txt"] ∧
    (ListModelFiles sampleBundle).count "labels.txt" = 1 ∧
    (ListModelFiles sampleBundle).length = sampleBundle.model_files_.size :=
  ⟨by decide,
   (ListModelFiles_all_names sampleBundle).2.2.1 "labels.txt" (by decide),
   (ListModelFiles_all_names sampleBundle).2.2.2.1⟩

/-! ## The factory -/

/-- C4: for every tag, `Create` with the null descriptor returns an error of
kind `kInvalidArgument` and no instance, and calls neither the path search nor
the file handler nor the archive reader. -/
theorem Create_null_descriptor (env : Collaborators) (tag : String) :
    (Create env tag none).1 =
      .error { code := StatusCode.kInvalidArgument
               message := "The model asset bundle file proto cannot be nullptr."
               payload := some MediaPipeTasksStatus.kInvalidArgumentError } ∧
    (∀ r, (Create env tag none).1 ≠ .ok r) ∧
    (Create env tag none).2 = [] := by
  refine ⟨rfl, ?_, rfl⟩
  intro r h
  cases h

/-- C5: for every descriptor with a file name (a relative one in particular)
that the path search fails to find, `Create` returns the error of the search
(so `kNotFound` when that is its kind) and no instance, and the search is the
only call made: neither the file handler nor the archive reader is invoked. -/
theorem Create_search_failure (env : Collaborators) (tag : String) (file : ExternalFile)
    (name : String) (status : Status)
    (hname : file.file_name = some name)
    (hsearch : env.PathToResourceAsFile name = .error status) :
    (Create env tag (some file)).1 = .error status ∧
    (∀ r, (Create env tag (some file)).1 ≠ .ok r) ∧
    (status.code = StatusCode.kNotFound →
      ∃ e, (Create env tag (some file)).1 = .error e ∧ e.code = StatusCode.kNotFound) ∧
    (Create env tag (some file)).2 = [Call.PathToResourceAsFile name] ∧
    (∀ f, Call.CreateFromExternalFile f ∉ (Create env tag (some file)).2) ∧
    (∀ b, Call.ExtractFilesfromZipFile b ∉ (Create env tag (some file)).2) := by
  have hc := Create_of_search_error env tag file status _
    (resolveFileName_error env file name status hname hsearch)
  rw [hc]
  refine ⟨rfl, ?_, fun h => ⟨status, rfl, h⟩, rfl, ?_, ?_⟩
  · intro r h
    cases h
  · intro f
    simp
  · intro b
    simp

/-- C5, at a relative path the sample search does not find. -/
theorem Create_search_failure_witness :
    missingFile.file_name = some "nowhere.task" ∧
    sampleEnv.PathToResourceAsFile "nowhere.task" =
      .error { code := StatusCode.kNotFound, message := "resource not found",
               payload := none } ∧
    (Create sampleEnv "hand" (some missingFile)).1 =
      .error { code := StatusCode.kNotFound, message := "resource not found",
               payload := none } ∧
    (Create sampleEnv "hand" (some missingFile)).2 =
      [Call.PathToResourceAsFile "nowhere.task"] :=
  have h := Create_search_failure sampleEnv "hand" missingFile "nowhere.task"
    { code := StatusCode.kNotFound, message := "resource not found", payload := none }
    rfl rfl
  ⟨rfl, rfl, h.1, h.2.2.2.1⟩

/-- C6: for every descriptor with a file name (a relative one in particular)
that the path search maps to the path `P`, the file handler is built from the
descriptor rewritten to `P` and from no other, right after the search, and the
descriptor stored in the instance that `Create` returns has the path `P`. -/
theorem Create_rewrites_file_name (env : Collaborators) (tag : String) (file : ExternalFile)
    (name P : String)
    (hname : file.file_name = some name)
    (hsearch : env.PathToResourceAsFile name = .ok P) :
    (∀ r, (Create env tag (some file)).1 = .ok r →
      r.model_asset_bundle_file_ = file.set_file_name P ∧
      r.model_asset_bundle_file_.file_name = some P ∧
      ∃ handler, env.CreateFromExternalFile (file.set_file_name P) = .ok handler ∧
        r.model_asset_bundle_file_handler_ = some handler) ∧
    (∃ rest, (Create env tag (some file)).2 =
      Call.PathToResourceAsFile name ::
        Call.CreateFromExternalFile (file.set_file_name P) :: rest) ∧
    (∀ f, Call.CreateFromExternalFile f ∈ (Create env tag (some file)).2 →
      f = file.set_file_name P) := by
  have hres := resolveFileName_ok env file name P hname hsearch
  rcases Create_cases env tag file with
    ⟨status, log, h, _⟩ | ⟨resolved, status, log, h, hh, hc⟩ |
    ⟨resolved, handler, status, log, h, hh, ha, hc⟩ |
    ⟨resolved, handler, log, h, hh, ha, hc⟩
  · rw [hres] at h
    simp at h
  all_goals
    rw [hres] at h
    simp only [Prod.mk.injEq, Except.ok.injEq] at h
    obtain ⟨h1, h2⟩ := h
    subst h1
    subst h2
    rw [hc]
  · refine ⟨?_, ⟨[], rfl⟩, ?_⟩
    · intro r hr
      cases hr
    · intro f hf
      simpa using hf
  · refine ⟨?_, ⟨[_], rfl⟩, ?_⟩
    · intro r hr
      cases hr
    · intro f hf
      simpa using hf
  · refine ⟨?_, ⟨[_], rfl⟩, ?_⟩
    · intro r hr
      simp only [Except.ok.injEq] at hr
      subst hr
      exact ⟨rfl, rfl, handler, hh, rfl⟩
    · intro f hf
      simpa using hf

/-- C6, at the relative path `bundle.task`, found as `/res/bundle.task`. -/
theorem Create_rewrites_file_name_witness :
    relativeFile.file_name = some "bundle.task" ∧
    sampleEnv.PathToResourceAsFile "bundle.task" = .ok "/res/bundle.task" ∧
    (Create sampleEnv "hand" (some relativeFile)).1.toOption.map
        (fun r => r.model_asset_bundle_file_.file_name) = some (some "/res/bundle.task") ∧
    (∀ f, Call.CreateFromExternalFile f ∈ (Create sampleEnv "hand" (some relativeFile)).2 →
      f = relativeFile.set_file_name "/res/bundle.task") :=
  ⟨rfl, rfl, rfl,
   (Create_rewrites_file_name sampleEnv "hand" relativeFile "bundle.task" "/res/bundle.task"
      rfl rfl).2.2⟩

/-- C3: `Create` is all-or-nothing.  For every tag and descriptor: when the path
search fails, or the file handler cannot be built from the descriptor the
search step left, or the archive reader fails on the buffer of the handler
(a truncated archive for one), `Create` returns the error of that step and no
instance; the null descriptor gives no instance either.  `Create` returns an
instance only when every step it ran succeeded, and the table of files of that
instance is the whole table the archive reader produced from the empty one. -/
theorem Create_all_or_nothing (env : Collaborators) (tag : String) (file : ExternalFile) :
    (∀ name status, file.file_name = some name →
      env.PathToResourceAsFile name = .error status →
      (Create env tag (some file)).1 = .error status) ∧
    (∀ resolved log status, resolveFileName env file = (.ok resolved, log) →
      env.CreateFromExternalFile resolved = .error status →
      (Create env tag (some file)).1 = .error status) ∧
    (∀ resolved log handler status, resolveFileName env file = (.ok resolved, log) →
      env.CreateFromExternalFile resolved = .ok handler →
      (env.ExtractFilesfromZipFile handler.GetFileContent FlatHashMap.empty).1
        = .error status →
      (Create env tag (some file)).1 = .error status) ∧
    (∀ r, (Create env tag none).1 ≠ .ok r) ∧
    (∀ r, (Create env tag (some file)).1 = .ok r →
      ∃ resolved log handler, resolveFileName env file = (.ok resolved, log) ∧
        env.CreateFromExternalFile resolved = .ok handler ∧
        (env.ExtractFilesfromZipFile handler.GetFileContent FlatHashMap.empty).1
          = .ok () ∧
        r.model_files_ =
          (env.ExtractFilesfromZipFile handler.GetFileContent FlatHashMap.empty).2 ∧
        r.tag_ = tag ∧
        r.model_asset_bundle_file_ = resolved ∧
        r.model_asset_bundle_file_handler_ = some handler) := by
  refine ⟨?_, ?_, ?_, ?_, ?_⟩
  · intro name status hname hsearch
    rw [Create_of_search_error env tag file status _
      (resolveFileName_error env file name status hname hsearch)]
  · intro resolved log status h hh
    rw [Create_of_handler_error env tag file resolved status log h hh]
  · intro resolved log handler status h hh ha
    rw [Create_of_archive_error env tag file resolved handler status log h hh ha]
  · intro r h
    cases h
  · intro r hr
    exact Create_ok_inversion env tag file r hr

/-- C3, at a bundle whose archive is cut: the error of the archive reader comes
back, although the reader had already written an entry. -/
theorem Create_all_or_nothing_witness :
    resolveFileName sampleEnv cutFile =
      (.ok (cutFile.set_file_name "/res/cut.task"), [Call.PathToResourceAsFile "cut.task"]) ∧
    sampleEnv.CreateFromExternalFile (cutFile.set_file_name "/res/cut.task") =
      .ok { buffer := [80, 75, 3] } ∧
    (sampleEnv.ExtractFilesfromZipFile [80, 75, 3] FlatHashMap.empty).2.entries =
      [("model.tflite", [0])] ∧
    (Create sampleEnv "hand" (some cutFile)).1 =
      .error { code := StatusCode.kDataLoss, message := "truncated entry",
               payload := none } :=
  ⟨rfl, rfl, rfl,
   (Create_all_or_nothing sampleEnv "hand" cutFile).2.2.1
    (cutFile.set_file_name "/res/cut.task") [Call.PathToResourceAsFile "cut.task"]
    { buffer := [80, 75, 3] }
    { code := StatusCode.kDataLoss, message := "truncated entry", payload := none }
    rfl rfl rfl⟩

/-- C2: after a successful `Create`, for every name that `ListModelFiles`
lists, `GetModelFile` succeeds, never with an error, and returns exactly the
bytes of the one entry of that name in the table that the archive reader
produced from the buffer of the file handler built from the stored
descriptor. -/
theorem GetModelFile_listed_name (env : Collaborators) (tag : String)
    (file : Option ExternalFile) (r : ModelAssetBundleResources) (n : String)
    (hcreate : (Create env tag file).1 = .ok r)
    (hn : n ∈ ListModelFiles r) :
    ∃ handler bytes,
      env.CreateFromExternalFile r.model_asset_bundle_file_ = .ok handler ∧
      r.model_asset_bundle_file_handler_ = some handler ∧
      (env.ExtractFilesfromZipFile handler.GetFileContent FlatHashMap.empty).1 = .ok () ∧
      (n, bytes) ∈
        (env.ExtractFilesfromZipFile handler.GetFileContent FlatHashMap.empty).2.entries ∧
      (∀ other, (n, other) ∈
        (env.ExtractFilesfromZipFile handler.GetFileContent FlatHashMap.empty).2.entries →
        other = bytes) ∧
      GetModelFile r n = .ok bytes ∧
      (∀ status, GetModelFile r n ≠ .error status) := by
  cases file with
  | none => cases hcreate
  | some file =>
    obtain ⟨resolved, log, handler, _, hh, ha, hfiles, _, hfile, hhandler⟩ :=
      Create_ok_inversion env tag file r hcreate
    rw [ListModelFiles_eq_keys, List.mem_map] at hn
    obtain ⟨⟨k, bytes⟩, he, hk⟩ := hn
    simp only at hk
    subst hk
    have hfind := find_of_mem r.model_files_ (k, bytes) he
    simp only at hfind
    have hget : GetModelFile r k = .ok bytes := by
      simp [GetModelFile, hfind]
    refine ⟨handler, bytes, ?_, hhandler, ha, ?_, ?_, hget, ?_⟩
    · rw [hfile]
      exact hh
    · rw [← hfiles]
      exact he
    · intro other ho
      rw [← hfiles] at ho
      have hfind2 := find_of_mem r.model_files_ (k, other) ho
      simp only at hfind2
      rw [hfind] at hfind2
      simp only [Option.some.injEq, Prod.mk.injEq, true_and] at hfind2
      exact hfind2.symm
    · intro status hs
      rw [hget] at hs
      cases hs

/-- C2, at the sample bundle found through the relative path `bundle.task`:
`labels.txt` gives the bytes of `cat`, a line feed, `dog`. -/
theorem GetModelFile_listed_name_witness :
    (Create sampleEnv "hand" (some relativeFile)).1 = .ok createdBundle ∧
    "labels.txt" ∈ ListModelFiles createdBundle ∧
    GetModelFile createdBundle "labels.txt" = .ok [99, 97, 116, 10, 100, 111, 103] ∧
    ∃ handler bytes,
      sampleEnv.CreateFromExternalFile createdBundle.model_asset_bundle_file_ = .ok handler ∧
      createdBundle.model_asset_bundle_file_handler_ = some handler ∧
      (sampleEnv.ExtractFilesfromZipFile handler.GetFileContent FlatHashMap.empty).1
        = .ok () ∧
      ("labels.txt", bytes) ∈
        (sampleEnv.ExtractFilesfromZipFile handler.GetFileContent
          FlatHashMap.empty).2.entries ∧
      (∀ other, ("labels.txt", other) ∈
        (sampleEnv.ExtractFilesfromZipFile handler.GetFileContent
          FlatHashMap.empty).2.entries → other = bytes) ∧
      GetModelFile createdBundle "labels.txt" = .ok bytes ∧
      (∀ status, GetModelFile createdBundle "labels.txt" ≠ .error status) :=
  ⟨rfl, by decide, rfl,
   GetModelFile_listed_name sampleEnv "hand" (some relativeFile) createdBundle
     "labels.txt" rfl (by decide)⟩


/-! ## Lemmas for two instances -/

theorem ListModelFiles_call_eq (self : ModelAssetBundleResources) :
    ListModelFiles_call self = (ListModelFiles self, self) := by
  simp [ListModelFiles_call, model_files_traverse, ListModelFiles]

theorem GetModelFile_call_eq (self : ModelAssetBundleResources) (filename : String) :
    GetModelFile_call filename self = (GetModelFile self filename, self) := by
  unfold GetModelFile_call GetModelFile
  simp only [model_files_find]
  cases self.model_files_.find filename with
  | none => simp only [ListModelFiles_call_eq]
  | some it => rfl

theorem call_leaves_object (self : ModelAssetBundleResources) (q : Query) :
    (Query.call self q).2 = self := by
  cases q with
  | getModelFile filename => simp [Query.call, GetModelFile_call_eq]
  | listModelFiles => simp [Query.call, ListModelFiles_call_eq]

theorem GetModelFile_of_entry (self : ModelAssetBundleResources) (n : String) (bytes : Bytes)
    (h : (n, bytes) ∈ self.model_files_.entries) : GetModelFile self n = .ok bytes := by
  have hfind := find_of_mem self.model_files_ (n, bytes) h
  simp only at hfind
  simp [GetModelFile, hfind]

theorem GetModelFile_of_unlisted (self : ModelAssetBundleResources) (n : String)
    (h : n ∉ ListModelFiles self) :
    GetModelFile self n = .error (CreateStatusWithPayload StatusCode.kNotFound
      ("No model file with name: " ++ n ++
        ". All model files in the model asset bundle are: " ++
        StrJoin (ListModelFiles self) ", " ++ ".")
      MediaPipeTasksStatus.kFileNotFoundError) := by
  have hfind : self.model_files_.find n = none := by
    rw [find_eq_none_iff, ← ListModelFiles_eq_keys]
    exact h
  simp [GetModelFile, hfind]

theorem resolveFileName_congr (env1 env2 : Collaborators) (file : ExternalFile)
    (h : env1.PathToResourceAsFile = env2.PathToResourceAsFile) :
    resolveFileName env1 file = resolveFileName env2 file := by
  simp [resolveFileName, h]

/-- Two instances holding the same entries, in whatever order, answer alike up
to the order of the names. -/
theorem queries_of_perm (r1 r2 : ModelAssetBundleResources)
    (hperm : r1.model_files_.entries.Perm r2.model_files_.entries) :
    (ListModelFiles r1).Perm (ListModelFiles r2) ∧
    (∀ n, n ∈ ListModelFiles r1 → GetModelFile r1 n = GetModelFile r2 n) ∧
    (∀ n, n ∉ ListModelFiles r1 → n ∉ ListModelFiles r2) := by
  have hnames : (ListModelFiles r1).Perm (ListModelFiles r2) := by
    rw [ListModelFiles_eq_keys, ListModelFiles_eq_keys]
    exact hperm.map Prod.fst
  refine ⟨hnames, ?_, ?_⟩
  · intro n hn
    rw [ListModelFiles_eq_keys, List.mem_map] at hn
    obtain ⟨⟨k, bytes⟩, he, hk⟩ := hn
    simp only at hk
    subst hk
    rw [GetModelFile_of_entry r1 k bytes he,
      GetModelFile_of_entry r2 k bytes (hperm.mem_iff.1 he)]
  · intro n hn hn2
    exact hn (hnames.mem_iff.2 hn2)

theorem queries_of_same_table (r1 r2 : ModelAssetBundleResources)
    (h : r1.model_files_.entries = r2.model_files_.entries) :
    ListModelFiles r1 = ListModelFiles r2 ∧ ∀ n, GetModelFile r1 n = GetModelFile r2 n := by
  have hnames : ListModelFiles r1 = ListModelFiles r2 := by
    simp [ListModelFiles, h]
  refine ⟨hnames, ?_⟩
  intro n
  simp only [GetModelFile, FlatHashMap.find, h, hnames]

theorem sample_same_up_to_table_order : SameUpToTableOrder sampleEnv reorderedEnv := by
  refine ⟨rfl, rfl, ?_⟩
  intro buffer files
  by_cases h : buffer = sampleArchive
  · simp only [sampleEnv, reorderedEnv, h, if_true, sampleFiles, reorderedFiles]
    exact ⟨trivial, List.Perm.swap _ _ _⟩
  · simp only [sampleEnv, reorderedEnv, h, if_false]
    exact ⟨trivial, List.Perm.refl _⟩

/-! ## Reads, stored paths and tags -/

/-- C8: the two query methods are read-only.  Run as steps on the object,
`GetModelFile` (on its failure path as on its success path) and
`ListModelFiles` leave the instance, hence tag, stored descriptor and table of
files, as it was; and in any sequence of calls, each made on the instance the
call before left behind, every call returns what the same call returns on the
instance at the start. -/
theorem queries_read_only (self : ModelAssetBundleResources) (qs : List Query) :
    (∀ n, GetModelFile_call n self = (GetModelFile self n, self)) ∧
    ListModelFiles_call self = (ListModelFiles self, self) ∧
    (∀ q, (Query.call self q).2 = self) ∧
    (Query.callAll self qs).2 = self ∧
    (Query.callAll self qs).2.tag_ = self.tag_ ∧
    (Query.callAll self qs).2.model_asset_bundle_file_ = self.model_asset_bundle_file_ ∧
    (Query.callAll self qs).2.model_files_ = self.model_files_ ∧
    (Query.callAll self qs).1 = qs.map (fun q => (Query.call self q).1) := by
  have hall : (Query.callAll self qs).2 = self ∧
      (Query.callAll self qs).1 = qs.map (fun q => (Query.call self q).1) := by
    induction qs with
    | nil => exact ⟨rfl, rfl⟩
    | cons q rest ih =>
      simp only [Query.callAll, call_leaves_object, List.map_cons]
      exact ⟨ih.1, by rw [ih.2]⟩
  refine ⟨GetModelFile_call_eq self, ListModelFiles_call_eq self, call_leaves_object self,
    hall.1, ?_, ?_, ?_, hall.2⟩ <;> rw [hall.1]

/-- C8, at the sample bundle: a found name, a missing name and the listing,
each asked twice, give the same answers and leave the bundle as it was. -/
theorem queries_read_only_witness :
    (Query.callAll sampleBundle
      [Query.getModelFile "labels.txt", Query.getModelFile "missing.bin",
       Query.listModelFiles, Query.getModelFile "missing.bin",
       Query.getModelFile "labels.txt", Query.listModelFiles]).1 =
      [Answer.file (.ok [99, 97, 116, 10, 100, 111, 103]),
       Answer.file (GetModelFile sampleBundle "missing.bin"),
       Answer.names ["model.tflite", "labels.txt"],
       Answer.file (GetModelFile sampleBundle "missing.bin"),
       Answer.file (.ok [99, 97, 116, 10, 100, 111, 103]),
       Answer.names ["model.tflite", "labels.txt"]] ∧
    (Query.callAll sampleBundle
      [Query.getModelFile "labels.txt", Query.getModelFile "missing.bin",
       Query.listModelFiles, Query.getModelFile "missing.bin",
       Query.getModelFile "labels.txt", Query.listModelFiles]).2 = sampleBundle :=
  ⟨rfl,
   (queries_read_only sampleBundle
      [Query.getModelFile "labels.txt", Query.getModelFile "missing.bin",
       Query.listModelFiles, Query.getModelFile "missing.bin",
       Query.getModelFile "labels.txt", Query.listModelFiles]).2.2.2.1⟩

/-- C9: `Create` changes the stored descriptor only by rewriting a file name
into the path the search resolved it to.  The search is taken to return a path
that is already absolute as it is (it searches relative paths only); what
counts as absolute is left open.  Then: a descriptor without a file name
(inline bytes, platform handle or pointer range) has the search not invoked
and is stored as supplied; a descriptor whose file name is already absolute is
stored with the supplied path, indeed as supplied; and any descriptor with a
file name is stored as supplied but for the file name, which is the path the
search returned. -/
theorem Create_stored_descriptor (env : Collaborators) (absolute : String → Prop)
    (hkeep : ∀ path, absolute path → env.PathToResourceAsFile path = .ok path)
    (tag : String) (file : ExternalFile) :
    (file.file_name = none →
      (∀ path, Call.PathToResourceAsFile path ∉ (Create env tag (some file)).2) ∧
      (∀ r, (Create env tag (some file)).1 = .ok r → r.model_asset_bundle_file_ = file)) ∧
    (∀ name, file.file_name = some name → absolute name →
      ∀ r, (Create env tag (some file)).1 = .ok r →
        r.model_asset_bundle_file_.file_name = some name ∧
        r.model_asset_bundle_file_ = file) ∧
    (∀ name, file.file_name = some name →
      ∀ r, (Create env tag (some file)).1 = .ok r →
        ∃ path, env.PathToResourceAsFile name = .ok path ∧
          r.model_asset_bundle_file_ = file.set_file_name path) := by
  have hstored : ∀ r, (Create env tag (some file)).1 = .ok r →
      ∃ log, resolveFileName env file = (.ok r.model_asset_bundle_file_, log) := by
    intro r hr
    obtain ⟨resolved, log, handler, h, _, _, _, _, hfile, _⟩ :=
      Create_ok_inversion env tag file r hr
    exact ⟨log, by rw [hfile]; exact h⟩
  refine ⟨?_, ?_, ?_⟩
  · intro hnone
    have hres := resolveFileName_none env file hnone
    constructor
    · intro path
      rcases Create_cases env tag file with
        ⟨status, log, h, hc⟩ | ⟨resolved, status, log, h, hh, hc⟩ |
        ⟨resolved, handler, status, log, h, hh, ha, hc⟩ |
        ⟨resolved, handler, log, h, hh, ha, hc⟩
      all_goals
        rw [hres] at h
        simp only [Prod.mk.injEq] at h
        obtain ⟨_, h2⟩ := h
        subst h2
        rw [hc]
        simp
    · intro r hr
      obtain ⟨log, h⟩ := hstored r hr
      rw [hres] at h
      simp only [Prod.mk.injEq, Except.ok.injEq] at h
      exact h.1.symm
  · intro name hname habs r hr
    obtain ⟨log, h⟩ := hstored r hr
    rw [resolveFileName_ok env file name name hname (hkeep name habs)] at h
    simp only [Prod.mk.injEq, Except.ok.injEq] at h
    have hsame : r.model_asset_bundle_file_ = file := by
      rw [← h.1]
      exact set_file_name_same file name hname
    exact ⟨by rw [hsame]; exact hname, hsame⟩
  · intro name hname r hr
    obtain ⟨log, h⟩ := hstored r hr
    rcases resolveFileName_ok_cases env file _ log h with ⟨hnone, _, _⟩ |
      ⟨name2, path, hname2, hp, hres, _⟩
    · rw [hname] at hnone
      cases hnone
    · rw [hname] at hname2
      cases hname2
      exact ⟨path, hp, hres⟩

/-- C9, at the sample search, which returns paths starting with `/` as they
are: the inline archive is stored as supplied without a search, and the
absolute path `/res/bundle.task` is stored as supplied. -/
theorem Create_stored_descriptor_witness :
    (∀ path, isAbsolutePath path = true → sampleEnv.PathToResourceAsFile path = .ok path) ∧
    isAbsolutePath "/res/bundle.task" = true ∧
    (∀ path, Call.PathToResourceAsFile path ∉ (Create sampleEnv "hand" (some inlineFile)).2) ∧
    (Create sampleEnv "hand" (some inlineFile)).1.toOption.map
      (fun r => r.model_asset_bundle_file_) = some inlineFile ∧
    (Create sampleEnv "hand" (some plainAbsoluteFile)).1.toOption.map
      (fun r => r.model_asset_bundle_file_) = some plainAbsoluteFile ∧
    (∀ r, (Create sampleEnv "hand" (some plainAbsoluteFile)).1 = .ok r →
      r.model_asset_bundle_file_.file_name = some "/res/bundle.task" ∧
      r.model_asset_bundle_file_ = plainAbsoluteFile) :=
  have hkeep : ∀ path, isAbsolutePath path = true →
      sampleEnv.PathToResourceAsFile path = .ok path := by
    intro path h
    simp [sampleEnv, h]
  ⟨hkeep, by decide,
   ((Create_stored_descriptor sampleEnv (fun path => isAbsolutePath path = true) hkeep
      "hand" inlineFile).1 rfl).1,
   rfl, rfl,
   (Create_stored_descriptor sampleEnv (fun path => isAbsolutePath path = true) hkeep
      "hand" plainAbsoluteFile).2.1 "/res/bundle.task" rfl (by decide)⟩

/-- C10, refuted as stated: two bundles made from the same descriptor under the
tags `hand` and `face`, each with its own table, the second iterating its
entries in the other order.  Both hold the same entries, yet `ListModelFiles`
returns the names in different orders and the message of `GetModelFile` for a
missing name enumerates them in different orders. -/
theorem Create_two_tables_differ_in_order :
    SameUpToTableOrder sampleEnv reorderedEnv ∧
    (Create sampleEnv "hand" (some relativeFile)).1.toOption.map ListModelFiles =
      some ["model.tflite", "labels.txt"] ∧
    (Create reorderedEnv "face" (some relativeFile)).1.toOption.map ListModelFiles =
      some ["labels.txt", "model.tflite"] ∧
    (Create sampleEnv "hand" (some relativeFile)).1.toOption.map
        (fun r => (GetModelFile r "missing.bin").toOption) = some none ∧
    (Create reorderedEnv "face" (some relativeFile)).1.toOption.map
        (fun r => (GetModelFile r "missing.bin").toOption) = some none ∧
    (Create sampleEnv "hand" (some relativeFile)).1.toOption.map
        (fun r => GetModelFile r "missing.bin") =
      some (.error (CreateStatusWithPayload StatusCode.kNotFound
        ("No model file with name: missing.bin. All model files in the model asset " ++
          "bundle are: model.tflite, labels.txt.")
        MediaPipeTasksStatus.kFileNotFoundError)) ∧
    (Create reorderedEnv "face" (some relativeFile)).1.toOption.map
        (fun r => GetModelFile r "missing.bin") =
      some (.error (CreateStatusWithPayload StatusCode.kNotFound
        ("No model file with name: missing.bin. All model files in the model asset " ++
          "bundle are: labels.txt, model.tflite.")
        MediaPipeTasksStatus.kFileNotFoundError)) ∧
    ["model.tflite", "labels.txt"] ≠ ["labels.txt", "model.tflite"] ∧
    ("No model file with name: missing.bin. All model files in the model asset " ++
        "bundle are: model.tflite, labels.txt.") ≠
      ("No model file with name: missing.bin. All model files in the model asset " ++
        "bundle are: labels.txt, model.tflite.") :=
  ⟨sample_same_up_to_table_order, rfl, rfl, rfl, rfl, rfl, rfl, by decide, by decide⟩

/-- C10, amended: the tag is diagnostic only.  For every descriptor, null or
not, and every two tags, two calls of `Create` that differ at most in the
iteration order of the table each object fills make the same calls and fail
with the same error when one of them fails; when one returns an instance so
does the other, with the same stored descriptor and handler and the same
entries.  `ListModelFiles` then gives the same names up to order,
`GetModelFile` gives the same result for every listed name, and for every
other name both give the `kNotFound` error whose message enumerates the names
of the own table in its order.  When the two tables iterate in the same order,
`ListModelFiles` and `GetModelFile` agree altogether, message included. -/
theorem Create_tag_independent (env1 env2 : Collaborators)
    (horder : SameUpToTableOrder env1 env2) (t1 t2 : String)
    (file : Option ExternalFile) :
    (Create env1 t1 file).2 = (Create env2 t2 file).2 ∧
    (∀ status, (Create env1 t1 file).1 = .error status ↔
      (Create env2 t2 file).1 = .error status) ∧
    (∀ r1, (Create env1 t1 file).1 = .ok r1 →
      ∃ r2, (Create env2 t2 file).1 = .ok r2 ∧
        r2.model_asset_bundle_file_ = r1.model_asset_bundle_file_ ∧
        r2.model_asset_bundle_file_handler_ = r1.model_asset_bundle_file_handler_ ∧
        r1.model_files_.entries.Perm r2.model_files_.entries ∧
        (ListModelFiles r1).Perm (ListModelFiles r2) ∧
        (∀ n, n ∈ ListModelFiles r1 → GetModelFile r1 n = GetModelFile r2 n) ∧
        (∀ n, n ∉ ListModelFiles r1 →
          GetModelFile r1 n = .error (CreateStatusWithPayload StatusCode.kNotFound
            ("No model file with name: " ++ n ++
              ". All model files in the model asset bundle are: " ++
              StrJoin (ListModelFiles r1) ", " ++ ".")
            MediaPipeTasksStatus.kFileNotFoundError) ∧
          GetModelFile r2 n = .error (CreateStatusWithPayload StatusCode.kNotFound
            ("No model file with name: " ++ n ++
              ". All model files in the model asset bundle are: " ++
              StrJoin (ListModelFiles r2) ", " ++ ".")
            MediaPipeTasksStatus.kFileNotFoundError)) ∧
        (r1.model_files_.entries = r2.model_files_.entries →
          ListModelFiles r1 = ListModelFiles r2 ∧
          ∀ n, GetModelFile r1 n = GetModelFile r2 n)) := by
  obtain ⟨hsearch, hhandler, harchive⟩ := horder
  cases file with
  | none =>
    refine ⟨rfl, fun status => Iff.rfl, ?_⟩
    intro r1 h
    cases h
  | some file =>
    have hres := resolveFileName_congr env1 env2 file hsearch
    rcases Create_cases env1 t1 file with
      ⟨status, log, h, hc⟩ | ⟨resolved, status, log, h, hh, hc⟩ |
      ⟨resolved, handler, status, log, h, hh, ha, hc⟩ |
      ⟨resolved, handler, log, h, hh, ha, hc⟩
    · rw [hres] at h
      rw [hc, Create_of_search_error env2 t2 file status log h]
      refine ⟨rfl, fun _ => Iff.rfl, ?_⟩
      intro r1 hr
      cases hr
    · rw [hres] at h
      rw [hhandler] at hh
      rw [hc, Create_of_handler_error env2 t2 file resolved status log h hh]
      refine ⟨rfl, fun _ => Iff.rfl, ?_⟩
      intro r1 hr
      cases hr
    · rw [hres] at h
      rw [hhandler] at hh
      rw [(harchive handler.GetFileContent FlatHashMap.empty).1] at ha
      rw [hc, Create_of_archive_error env2 t2 file resolved handler status log h hh ha]
      refine ⟨rfl, fun _ => Iff.rfl, ?_⟩
      intro r1 hr
      cases hr
    · have hperm := (harchive handler.GetFileContent FlatHashMap.empty).2
      rw [hres] at h
      rw [hhandler] at hh
      rw [(harchive handler.GetFileContent FlatHashMap.empty).1] at ha
      rw [hc, Create_of_archive_ok env2 t2 file resolved handler log h hh ha]
      refine ⟨rfl, ?_, ?_⟩
      · intro status
        constructor <;> intro hs <;> cases hs
      · intro r1 hr
        simp only [Except.ok.injEq] at hr
        subst hr
        refine ⟨_, rfl, rfl, rfl, hperm, ?_, ?_, ?_, ?_⟩
        · exact (queries_of_perm _ _ hperm).1
        · exact (queries_of_perm _ _ hperm).2.1
        · intro n hn
          exact ⟨GetModelFile_of_unlisted _ n hn,
            GetModelFile_of_unlisted _ n ((queries_of_perm _ _ hperm).2.2 n hn)⟩
        · intro hsame
          exact queries_of_same_table _ _ hsame

/-- C10 amended, at the sample bundle made under the tags `hand` and `face`
with tables iterating in opposite orders: the same calls, and `labels.txt`
read alike from both. -/
theorem Create_tag_independent_witness :
    SameUpToTableOrder sampleEnv reorderedEnv ∧
    (Create sampleEnv "hand" (some relativeFile)).2 =
      (Create reorderedEnv "face" (some relativeFile)).2 ∧
    (Create sampleEnv "hand" (some relativeFile)).1.toOption.map
        (fun r => (GetModelFile r "labels.txt").toOption) =
      some (some [99, 97, 116, 10, 100, 111, 103]) ∧
    (Create reorderedEnv "face" (some relativeFile)).1.toOption.map
        (fun r => (GetModelFile r "labels.txt").toOption) =
      some (some [99, 97, 116, 10, 100, 111, 103]) :=
  ⟨sample_same_up_to_table_order,
   (Create_tag_independent sampleEnv reorderedEnv sample_same_up_to_table_order
      "hand" "face" (some relativeFile)).1,
   rfl, rfl⟩

end mediapipe.tasks.core
